import Mathlib

/-!
Verification of the convergence poller and the CRUD fragments of the
`vultr_kubernetes` resource (`vultr/resource_vultr_kubernetes.go`).

The polling loop itself lives in the host SDK (`resource.StateChangeConf`
and its method `WaitForStateContext`), whose implementation is not part of
this repository's sources; following the specification, that loop is
modelled here as an explicit state machine (`pollStep` / `awaitAux` /
`await`).  The pieces that are in the repository — the refresh callback
`newVKEStateRefresh`, the error classification inside
`resourceVultrKubernetesRead`, the node-pool request construction
(`generateNodePool` and the node-pool-creation branch of the update
function), and the create flow — are embedded directly from the source.
-/

namespace VKE

/-- Modelled from the spec: one observation produced by the injected
`fetch` callback (missing SDK code: the refresh-result classification of
`StateChangeConf`).  A poll either reads a state label successfully, fails
with a "not found"-classified error, or fails with some other transport
error. -/
inductive Observation where
  | found (label : String)
  | notFound
  | transportError
  deriving DecidableEq, Repr

/-- Modelled from the spec: the `PollSpec` record of the convergence
poller (missing SDK code: the configuration carried by
`StateChangeConf`).  Durations are in abstract time units. -/
structure PollSpec where
  target : String
  transientStates : List String
  minInterval : Nat
  maxInterval : Nat
  timeout : Nat
  notFoundRetryBudget : Nat
  deriving DecidableEq, Repr

/-- Modelled from the spec: the classification of a finished run of the
poller (missing SDK code: the result of `WaitForStateContext`).
`outOfFuel` is an artifact of the bounded recursion used to make the
loop a total function; with enough fuel it never occurs. -/
inductive Outcome where
  | success (obs : Observation)
  | unexpectedState (label : String)
  | notFoundExhausted
  | transportFailed
  | timedOut
  | cancelled
  | outOfFuel
  deriving DecidableEq, Repr

/-- Modelled from the spec: the mutable state owned by one invocation of
the poller: elapsed time, current backoff interval, remaining not-found
budget, and instrumentation (number of fetches, number of ticks, the time
of each fetch, and the sequence of sleep intervals). -/
structure LoopState where
  elapsed : Nat
  backoff : Nat
  budget : Nat
  fetches : Nat
  ticks : Nat
  fetchTimes : List Nat
  sleeps : List Nat
  deriving DecidableEq, Repr

/-- Modelled from the spec: a finished run: its classification plus the
final loop state. -/
structure RunResult where
  outcome : Outcome
  st : LoopState
  deriving DecidableEq, Repr

/-- Modelled from the spec: whether the caller-initiated cancellation
signal (raised at absolute time `t` when `cancelAt = some t`) is visible
at elapsed time `e`. -/
def cancelSignaled (cancelAt : Option Nat) (e : Nat) : Bool :=
  match cancelAt with
  | some t => decide (t ≤ e)
  | none => false

/-- Modelled from the spec: bookkeeping for one fetch: the tick performs
exactly one remote read, recorded with its issue time. -/
def afterFetch (s : LoopState) : LoopState :=
  { s with fetches := s.fetches + 1, ticks := s.ticks + 1,
           fetchTimes := s.fetchTimes ++ [s.elapsed] }

/-- Modelled from the spec: sleep for the current backoff interval, then
double the interval, capped at `maxInterval`. -/
def stepSleep (ps : PollSpec) (s : LoopState) : LoopState :=
  { s with elapsed := s.elapsed + s.backoff,
           sleeps := s.sleeps ++ [s.backoff],
           backoff := min (2 * s.backoff) ps.maxInterval }

/-- Modelled from the spec: the outcome of one tick: either the run ends
with a classification, or it continues from an updated loop state. -/
inductive StepRes where
  | done (o : Outcome) (s : LoopState)
  | again (s : LoopState)
  deriving DecidableEq, Repr

/-- Modelled from the spec: one tick of the poller.  Cancellation is
checked first, then the deadline; only then is `fetch` invoked (exactly
once).  A "not found" failure consumes one unit of budget and retries
after a sleep; the target label succeeds immediately; a transient label
sleeps and retries; any other label is an unexpected-state failure. -/
def pollStep (ps : PollSpec) (cancelAt : Option Nat) (fetch : Nat → Observation)
    (s : LoopState) : StepRes :=
  if cancelSignaled cancelAt s.elapsed then StepRes.done Outcome.cancelled s
  else if ps.timeout < s.elapsed then StepRes.done Outcome.timedOut s
  else
    match fetch s.fetches with
    | Observation.transportError => StepRes.done Outcome.transportFailed (afterFetch s)
    | Observation.notFound =>
        if s.budget = 0 then StepRes.done Outcome.notFoundExhausted (afterFetch s)
        else StepRes.again (stepSleep ps { afterFetch s with budget := s.budget - 1 })
    | Observation.found lbl =>
        if lbl = ps.target then StepRes.done (Outcome.success (Observation.found lbl)) (afterFetch s)
        else if ps.transientStates.contains lbl then StepRes.again (stepSleep ps (afterFetch s))
        else StepRes.done (Outcome.unexpectedState lbl) (afterFetch s)

/-- Modelled from the spec: the polling loop, made total with a fuel
argument. -/
def awaitAux (ps : PollSpec) (cancelAt : Option Nat) (fetch : Nat → Observation) :
    Nat → LoopState → RunResult
  | 0, s => ⟨Outcome.outOfFuel, s⟩
  | fuel + 1, s =>
      match pollStep ps cancelAt fetch s with
      | StepRes.done o s' => ⟨o, s'⟩
      | StepRes.again s' => awaitAux ps cancelAt fetch fuel s'

/-- Modelled from the spec: initial loop state: no time elapsed, backoff
initialized to `minInterval`, full not-found budget. -/
def initState (ps : PollSpec) : LoopState :=
  { elapsed := 0, backoff := ps.minInterval, budget := ps.notFoundRetryBudget,
    fetches := 0, ticks := 0, fetchTimes := [], sleeps := [] }

/-- Modelled from the spec: `await(ctx, spec, fetch)`, the convergence
poller behind `waitForVKEAvailable` (missing SDK code:
`StateChangeConf.WaitForStateContext`). -/
def await (ps : PollSpec) (cancelAt : Option Nat) (fetch : Nat → Observation)
    (fuel : Nat) : RunResult :=
  awaitAux ps cancelAt fetch fuel (initState ps)

/-- The sequence of backoff intervals: `minInterval`, then capped
doubling. -/
def backoffSeq (mn mx : Nat) : Nat → Nat
  | 0 => mn
  | n + 1 => min (2 * backoffSeq mn mx n) mx

/-! ## Source-embedded definitions -/

/-- The tag constant `tfVKEDefault` (source line 16). -/
def tfVKEDefault : String := "tf-vke-default"

/-- A node as returned by the remote API (fields used by this resource). -/
structure K8Node where
  id : String
  status : String
  dateCreated : String
  label : String
  deriving DecidableEq, Repr

/-- A node pool as returned by the remote API (fields used by this
resource). -/
structure NodePool where
  id : String
  label : String
  plan : String
  status : String
  nodeQuantity : Int
  tag : String
  dateCreated : String
  dateUpdated : String
  nodes : List K8Node
  autoScaler : Bool
  minNodes : Int
  maxNodes : Int
  deriving DecidableEq, Repr

/-- A cluster as returned by the remote API (fields used by this
resource). -/
structure K8Cluster where
  id : String
  status : String
  nodePools : List NodePool
  deriving DecidableEq, Repr

/-- One entry of the `node_pools` configuration list, as read from the
schema data. -/
structure PoolCfg where
  nodeQuantity : Int
  label : String
  plan : String
  autoScaler : Bool
  minNodes : Int
  maxNodes : Int
  deriving DecidableEq, Repr

/-- A `govultr.NodePoolReq` request body.  `autoScaler` is a pointer in
Go, hence an `Option`; unset Go fields take their zero values. -/
structure NodePoolReq where
  nodeQuantity : Int
  label : String
  plan : String
  tag : String
  autoScaler : Option Bool
  minNodes : Int
  maxNodes : Int
  deriving DecidableEq, Repr

/-- Embeds `generateNodePool` (source lines 235-254): every configured
pool is turned into a request whose `Tag` is the constant
`tfVKEDefault`. -/
def generateNodePool (pools : List PoolCfg) : List NodePoolReq :=
  pools.map fun r =>
    { nodeQuantity := r.nodeQuantity
      label := r.label
      plan := r.plan
      tag := tfVKEDefault
      autoScaler := some r.autoScaler
      minNodes := r.minNodes
      maxNodes := r.maxNodes }

/-- Embeds the node-pool-creation branch of `resourceVultrKubernetesUpdate`
(source lines 206-213): only `NodeQuantity`, `Tag`, `Plan` and `Label`
are set; the remaining Go fields keep their zero values. -/
def updateCreateNodePoolReq (n : PoolCfg) : NodePoolReq :=
  { nodeQuantity := n.nodeQuantity
    label := n.label
    plan := n.plan
    tag := tfVKEDefault
    autoScaler := none
    minNodes := 0
    maxNodes := 0 }

/-- Embeds the node-pool selection loop of `resourceVultrKubernetesRead`
(source lines 136-143): scan the remote pools in order, copy the first
one whose tag is `tfVKEDefault` and stop (the loop breaks after the first
match). -/
def firstDefaultPool : List NodePool → Option NodePool
  | [] => none
  | v :: rest => if tfVKEDefault == v.tag then some v else firstDefaultPool rest

/-- Whether `pat` occurs as a contiguous run inside `l` (character-level
counterpart of Go `strings.Contains`). -/
def charsHaveInfix (pat : List Char) : List Char → Bool
  | [] => pat.isEmpty
  | c :: t => pat.isPrefixOf (c :: t) || charsHaveInfix pat t

/-- Go `strings.Contains s pat`. -/
def strContainsSub (s pat : String) : Bool :=
  charsHaveInfix pat.toList s.toList

/-- Result of the error branch of `resourceVultrKubernetesRead`:
`newId = some ""` models `d.SetId("")` (resource treated as gone),
`newId = none` leaves the stored ID unchanged; `diagError = none` models
returning nil diagnostics. -/
structure ReadErrResult where
  newId : Option String
  diagError : Option String
  deriving DecidableEq, Repr

/-- Embeds the `GetCluster` error handling of `resourceVultrKubernetesRead`
(source lines 122-133): substring-classify the error message, checking
"Unauthorized" first, then "Invalid resource ID" (which clears the ID and
returns nil), and otherwise return a generic error. -/
def readOnGetClusterError (id msg : String) : ReadErrResult :=
  if strContainsSub msg "Unauthorized" then
    { newId := none, diagError := some ("API authorization error: " ++ msg) }
  else if strContainsSub msg "Invalid resource ID" then
    { newId := some "", diagError := none }
  else
    { newId := none, diagError := some ("error getting cluster (" ++ id ++ "): " ++ msg) }

/-- Outcome of the create flow: the stored resource ID after the call
(`none` = never set) and whether an error diagnostic is returned. -/
structure CreateOutcome where
  storedId : Option String
  hasError : Bool
  deriving DecidableEq, Repr

/-- Whether a finished wait is a failure (anything but success). -/
def waitFailed (r : RunResult) : Bool :=
  match r.outcome with
  | Outcome.success _ => false
  | _ => true

/-- Embeds `resourceVultrKubernetesCreate` (source lines 103-116): if the
remote create fails, return an error with the ID never set; otherwise
`d.SetId(cluster.ID)` runs first and only then the convergence wait, so
the stored ID is the created cluster's ID whatever the wait returns. -/
def resourceVultrKubernetesCreate (createRes : Except String K8Cluster)
    (waitRes : RunResult) : CreateOutcome :=
  match createRes with
  | Except.error _ => { storedId := none, hasError := true }
  | Except.ok cluster => { storedId := some cluster.id, hasError := waitFailed waitRes }

/-- One refresh observation as returned by the function built by
`newVKEStateRefresh`: `(interface{}, string, error)`. -/
structure RefreshObs where
  payload : Option K8Cluster
  label : String
  err : Option String
  deriving DecidableEq, Repr

/-- Embeds `newVKEStateRefresh` (source lines 274-292): on a failed remote
read, discard the underlying error and return a fresh error naming only
the cluster ID; on success return `(vke, vke.Status, nil)` when the
attribute is "status" and `(nil, "", nil)` otherwise. -/
def newVKEStateRefresh (attr : String) (id : String)
    (remote : Except String K8Cluster) : RefreshObs :=
  match remote with
  | Except.error _ =>
      { payload := none, label := "",
        err := some ("error retrieving kubernetes cluster " ++ id ++ " ") }
  | Except.ok vke =>
      if attr = "status" then { payload := some vke, label := vke.status, err := none }
      else { payload := none, label := "", err := none }

/-! ## Concrete fixtures for spot checks -/

/-- The poll configuration of the create flow: target "active", pending
list `["pending"]` (source line 111), with concrete small intervals. -/
def psA : PollSpec := ⟨"active", ["pending"], 5, 10, 3600, 60⟩

/-- The same configuration with `notFoundRetryBudget = 2` (the spec's
concrete budget-exhaustion scenario). -/
def psB : PollSpec := ⟨"active", ["pending"], 5, 10, 3600, 2⟩

/-- A fetch script: two "pending" observations, then "active". -/
def fetchPendActive : Nat → Observation :=
  fun i => if i < 2 then Observation.found "pending" else Observation.found "active"

/-- A fetch script that reports "pending" forever. -/
def fetchPendingOnly : Nat → Observation := fun _ => Observation.found "pending"

/-- A fetch script that fails "not found" forever. -/
def fetchNF : Nat → Observation := fun _ => Observation.notFound

/-- A fetch script that reports a label outside the known alphabet. -/
def fetchOdd : Nat → Observation := fun _ => Observation.found "weird"

/-! ## Basic lemmas about the poller -/

lemma cancelSignaled_none (e : Nat) : cancelSignaled none e = false := rfl

lemma cancelSignaled_some_false {c e : Nat} (h : cancelSignaled (some c) e = false) :
    e < c := by
  simpa [cancelSignaled] using h

lemma awaitAux_zero (ps : PollSpec) (cancelAt : Option Nat) (fetch : Nat → Observation)
    (s : LoopState) : awaitAux ps cancelAt fetch 0 s = ⟨Outcome.outOfFuel, s⟩ := rfl

lemma awaitAux_done {ps : PollSpec} {cancelAt : Option Nat} {fetch : Nat → Observation}
    {s s' : LoopState} {o : Outcome} (fuel : Nat)
    (h : pollStep ps cancelAt fetch s = StepRes.done o s') :
    awaitAux ps cancelAt fetch (fuel + 1) s = ⟨o, s'⟩ := by
  simp only [awaitAux, h]

lemma awaitAux_again {ps : PollSpec} {cancelAt : Option Nat} {fetch : Nat → Observation}
    {s s' : LoopState} (fuel : Nat)
    (h : pollStep ps cancelAt fetch s = StepRes.again s') :
    awaitAux ps cancelAt fetch (fuel + 1) s = awaitAux ps cancelAt fetch fuel s' := by
  simp only [awaitAux, h]

lemma pollStep_cancel {ps : PollSpec} {cancelAt : Option Nat} {fetch : Nat → Observation}
    {s : LoopState} (h : cancelSignaled cancelAt s.elapsed = true) :
    pollStep ps cancelAt fetch s = StepRes.done Outcome.cancelled s := by
  simp [pollStep, h]

lemma pollStep_timedOut {ps : PollSpec} {cancelAt : Option Nat} {fetch : Nat → Observation}
    {s : LoopState} (h1 : cancelSignaled cancelAt s.elapsed = false)
    (h2 : ps.timeout < s.elapsed) :
    pollStep ps cancelAt fetch s = StepRes.done Outcome.timedOut s := by
  simp [pollStep, h1, h2]

lemma pollStep_transport {ps : PollSpec} {cancelAt : Option Nat} {fetch : Nat → Observation}
    {s : LoopState} (h1 : cancelSignaled cancelAt s.elapsed = false)
    (h2 : ¬ ps.timeout < s.elapsed) (hf : fetch s.fetches = Observation.transportError) :
    pollStep ps cancelAt fetch s = StepRes.done Outcome.transportFailed (afterFetch s) := by
  simp [pollStep, h1, h2, hf]

lemma pollStep_target {ps : PollSpec} {cancelAt : Option Nat} {fetch : Nat → Observation}
    {s : LoopState} (h1 : cancelSignaled cancelAt s.elapsed = false)
    (h2 : ¬ ps.timeout < s.elapsed) (hf : fetch s.fetches = Observation.found ps.target) :
    pollStep ps cancelAt fetch s =
      StepRes.done (Outcome.success (Observation.found ps.target)) (afterFetch s) := by
  simp [pollStep, h1, h2, hf]

lemma pollStep_transient {ps : PollSpec} {cancelAt : Option Nat} {fetch : Nat → Observation}
    {s : LoopState} {l : String} (h1 : cancelSignaled cancelAt s.elapsed = false)
    (h2 : ¬ ps.timeout < s.elapsed) (hf : fetch s.fetches = Observation.found l)
    (hl : l ≠ ps.target) (hm : ps.transientStates.contains l = true) :
    pollStep ps cancelAt fetch s = StepRes.again (stepSleep ps (afterFetch s)) := by
  have hm' : l ∈ ps.transientStates := by simpa using hm
  simp [pollStep, h1, h2, hf, hl, hm']

lemma pollStep_unexpected {ps : PollSpec} {cancelAt : Option Nat} {fetch : Nat → Observation}
    {s : LoopState} {l : String} (h1 : cancelSignaled cancelAt s.elapsed = false)
    (h2 : ¬ ps.timeout < s.elapsed) (hf : fetch s.fetches = Observation.found l)
    (hl : l ≠ ps.target) (hm : ps.transientStates.contains l = false) :
    pollStep ps cancelAt fetch s = StepRes.done (Outcome.unexpectedState l) (afterFetch s) := by
  have hm' : l ∉ ps.transientStates := by simpa using hm
  simp [pollStep, h1, h2, hf, hl, hm']

lemma pollStep_notFound_zero {ps : PollSpec} {cancelAt : Option Nat} {fetch : Nat → Observation}
    {s : LoopState} (h1 : cancelSignaled cancelAt s.elapsed = false)
    (h2 : ¬ ps.timeout < s.elapsed) (hf : fetch s.fetches = Observation.notFound)
    (hb : s.budget = 0) :
    pollStep ps cancelAt fetch s = StepRes.done Outcome.notFoundExhausted (afterFetch s) := by
  simp [pollStep, h1, h2, hf, hb]

lemma pollStep_notFound_retry {ps : PollSpec} {cancelAt : Option Nat} {fetch : Nat → Observation}
    {s : LoopState} (h1 : cancelSignaled cancelAt s.elapsed = false)
    (h2 : ¬ ps.timeout < s.elapsed) (hf : fetch s.fetches = Observation.notFound)
    (hb : s.budget ≠ 0) :
    pollStep ps cancelAt fetch s =
      StepRes.again (stepSleep ps { afterFetch s with budget := s.budget - 1 }) := by
  simp [pollStep, h1, h2, hf, hb]

/-- Generic invariant on the loop state: any predicate preserved by a
fetch (under the guards that really hold whenever a fetch is issued),
insensitive to the budget field, and preserved by a sleep, holds of the
final state whenever it holds initially. -/
lemma awaitAux_state_inv (ps : PollSpec) (cancelAt : Option Nat) (fetch : Nat → Observation)
    (P : LoopState → Prop)
    (hAF : ∀ s, P s → cancelSignaled cancelAt s.elapsed = false →
      ¬ ps.timeout < s.elapsed → P (afterFetch s))
    (hBudget : ∀ s b, P s → P { s with budget := b })
    (hSleep : ∀ s, P s → P (stepSleep ps s)) :
    ∀ fuel s, P s → P (awaitAux ps cancelAt fetch fuel s).st := by
  intro fuel
  induction fuel with
  | zero => intro s hs; simpa [awaitAux_zero] using hs
  | succ f ih =>
    intro s hs
    cases hc : cancelSignaled cancelAt s.elapsed with
    | true => rw [awaitAux_done f (pollStep_cancel hc)]; exact hs
    | false =>
      by_cases htm : ps.timeout < s.elapsed
      · rw [awaitAux_done f (pollStep_timedOut hc htm)]; exact hs
      · cases hobs : fetch s.fetches with
        | transportError =>
            rw [awaitAux_done f (pollStep_transport hc htm hobs)]
            exact hAF s hs hc htm
        | notFound =>
            by_cases hb : s.budget = 0
            · rw [awaitAux_done f (pollStep_notFound_zero hc htm hobs hb)]
              exact hAF s hs hc htm
            · rw [awaitAux_again f (pollStep_notFound_retry hc htm hobs hb)]
              exact ih _ (hSleep _ (hBudget _ _ (hAF s hs hc htm)))
        | found lbl =>
            by_cases htg : lbl = ps.target
            · subst htg
              rw [awaitAux_done f (pollStep_target hc htm hobs)]
              exact hAF s hs hc htm
            · by_cases hmem : ps.transientStates.contains lbl
              · rw [awaitAux_again f (pollStep_transient hc htm hobs htg hmem)]
                exact ih _ (hSleep _ (hAF s hs hc htm))
              · rw [awaitAux_done f
                  (pollStep_unexpected hc htm hobs htg (by simpa using hmem))]
                exact hAF s hs hc htm

/-- Each tick performs exactly one fetch: tick and fetch counters agree
on the final state. -/
lemma await_ticks_eq_fetches (ps : PollSpec) (cancelAt : Option Nat)
    (fetch : Nat → Observation) (fuel : Nat) :
    (await ps cancelAt fetch fuel).st.ticks = (await ps cancelAt fetch fuel).st.fetches := by
  refine awaitAux_state_inv ps cancelAt fetch (fun s => s.ticks = s.fetches)
    ?_ ?_ ?_ fuel (initState ps) rfl
  · intro s hs _ _; simpa [afterFetch] using hs
  · intro s b hs; simpa using hs
  · intro s hs; simpa [stepSleep] using hs

/-- No fetch is issued after the deadline: every recorded fetch time is
at most the timeout. -/
lemma await_fetchTimes_le_timeout (ps : PollSpec) (cancelAt : Option Nat)
    (fetch : Nat → Observation) (fuel : Nat) :
    ∀ t ∈ (await ps cancelAt fetch fuel).st.fetchTimes, t ≤ ps.timeout := by
  refine awaitAux_state_inv ps cancelAt fetch
    (fun s => ∀ t ∈ s.fetchTimes, t ≤ ps.timeout) ?_ ?_ ?_ fuel (initState ps) ?_
  · intro s hs _ htm
    intro t ht
    simp only [afterFetch, List.mem_append, List.mem_singleton] at ht
    rcases ht with ht | rfl
    · exact hs t ht
    · exact Nat.not_lt.mp htm
  · intro s b hs; simpa using hs
  · intro s hs; simpa [stepSleep] using hs
  · intro t ht; simp [initState] at ht

/-- No fetch is issued at or after the cancellation signal: every
recorded fetch time is strictly before it. -/
lemma await_fetchTimes_lt_cancel (ps : PollSpec) (c : Nat)
    (fetch : Nat → Observation) (fuel : Nat) :
    ∀ t ∈ (await ps (some c) fetch fuel).st.fetchTimes, t < c := by
  refine awaitAux_state_inv ps (some c) fetch
    (fun s => ∀ t ∈ s.fetchTimes, t < c) ?_ ?_ ?_ fuel (initState ps) ?_
  · intro s hs hc _
    intro t ht
    simp only [afterFetch, List.mem_append, List.mem_singleton] at ht
    rcases ht with ht | rfl
    · exact hs t ht
    · exact cancelSignaled_some_false hc
  · intro s b hs; simpa using hs
  · intro s hs; simpa [stepSleep] using hs
  · intro t ht; simp [initState] at ht

/-! ## The backoff sequence -/

lemma backoffSeq_le {mn mx : Nat} (h : mn ≤ mx) : ∀ n, backoffSeq mn mx n ≤ mx
  | 0 => h
  | _ + 1 => min_le_right _ _

lemma backoffSeq_le_succ {mn mx : Nat} (h : mn ≤ mx) (n : Nat) :
    backoffSeq mn mx n ≤ backoffSeq mn mx (n + 1) :=
  le_min (Nat.le_mul_of_pos_left _ (by norm_num)) (backoffSeq_le h n)

lemma backoffSeq_pos {mn mx : Nat} (h1 : 1 ≤ mn) (h2 : mn ≤ mx) :
    ∀ n, 1 ≤ backoffSeq mn mx n
  | 0 => h1
  | n + 1 => le_min (le_trans (backoffSeq_pos h1 h2 n)
      (Nat.le_mul_of_pos_left _ (by norm_num))) (le_trans h1 h2)

/-- The sleep log of any run is an initial segment of the capped-doubling
backoff sequence, and the current backoff always sits at the next
position of that sequence. -/
lemma await_sleeps_eq_backoffSeq (ps : PollSpec) (cancelAt : Option Nat)
    (fetch : Nat → Observation) (fuel : Nat) :
    (await ps cancelAt fetch fuel).st.sleeps =
      (List.range (await ps cancelAt fetch fuel).st.sleeps.length).map
        (backoffSeq ps.minInterval ps.maxInterval) ∧
    (await ps cancelAt fetch fuel).st.backoff =
      backoffSeq ps.minInterval ps.maxInterval
        (await ps cancelAt fetch fuel).st.sleeps.length := by
  have h := awaitAux_state_inv ps cancelAt fetch
    (fun s => s.sleeps = (List.range s.sleeps.length).map
        (backoffSeq ps.minInterval ps.maxInterval) ∧
      s.backoff = backoffSeq ps.minInterval ps.maxInterval s.sleeps.length)
    ?_ ?_ ?_ fuel (initState ps) ?_
  · exact h
  · intro s hs _ _; simpa [afterFetch] using hs
  · intro s b hs; simpa using hs
  · intro s hs
    obtain ⟨h1, h2⟩ := hs
    constructor
    · simp only [stepSleep, List.length_append, List.length_singleton]
      rw [List.range_succ, List.map_append]
      simp [← h1, h2]
    · simp only [stepSleep, List.length_append, List.length_singleton]
      rw [h2, backoffSeq]
  · simp [initState, backoffSeq]

/-! ## Directed runs of the poller -/

/-- A run that sees `n` transient observations and then the target
succeeds with the target observation after exactly `n + 1` fetches and
`n + 1` ticks. -/
lemma awaitAux_transient_run (ps : PollSpec) (fetch : Nat → Observation) :
    ∀ (n fuel : Nat) (s : LoopState),
      n < fuel →
      s.backoff ≤ ps.maxInterval →
      s.elapsed + n * ps.maxInterval ≤ ps.timeout →
      (∀ i, i < n → ∃ l, fetch (s.fetches + i) = Observation.found l ∧
        l ≠ ps.target ∧ ps.transientStates.contains l = true) →
      fetch (s.fetches + n) = Observation.found ps.target →
      (awaitAux ps none fetch fuel s).outcome = Outcome.success (Observation.found ps.target) ∧
      (awaitAux ps none fetch fuel s).st.fetches = s.fetches + (n + 1) ∧
      (awaitAux ps none fetch fuel s).st.ticks = s.ticks + (n + 1) := by
  intro n
  induction n with
  | zero =>
      intro fuel s hfuel hbk htime htr htg
      obtain ⟨f, rfl⟩ : ∃ f, fuel = f + 1 :=
        ⟨fuel - 1, (Nat.succ_pred_eq_of_pos hfuel).symm⟩
      have h2 : ¬ ps.timeout < s.elapsed := by
        simp only [Nat.zero_mul, Nat.add_zero] at htime
        exact Nat.not_lt.mpr htime
      rw [awaitAux_done f (pollStep_target (cancelSignaled_none _) h2 (by simpa using htg))]
      simp [afterFetch]
  | succ m ih =>
      intro fuel s hfuel hbk htime htr htg
      obtain ⟨f, rfl⟩ : ∃ f, fuel = f + 1 :=
        ⟨fuel - 1, (Nat.succ_pred_eq_of_pos (Nat.lt_of_le_of_lt (Nat.zero_le _) hfuel)).symm⟩
      have htime' : s.elapsed + (m * ps.maxInterval + ps.maxInterval) ≤ ps.timeout := by
        rw [Nat.succ_mul] at htime; exact htime
      have h2 : ¬ ps.timeout < s.elapsed :=
        Nat.not_lt.mpr (le_trans (Nat.le_add_right _ _) htime')
      obtain ⟨l, hf, hnt, hmem⟩ := htr 0 (Nat.succ_pos m)
      rw [awaitAux_again f
        (pollStep_transient (cancelSignaled_none _) h2 (by simpa using hf) hnt hmem)]
      have hres := ih f (stepSleep ps (afterFetch s)) (Nat.lt_of_succ_lt_succ hfuel)
        (min_le_right _ _)
        (by
          show s.elapsed + s.backoff + m * ps.maxInterval ≤ ps.timeout
          calc s.elapsed + s.backoff + m * ps.maxInterval
              ≤ s.elapsed + ps.maxInterval + m * ps.maxInterval := by
                exact Nat.add_le_add_right (Nat.add_le_add_left hbk _) _
            _ = s.elapsed + (m * ps.maxInterval + ps.maxInterval) := by ring
            _ ≤ ps.timeout := htime')
        (by
          intro i hi
          obtain ⟨l', h1, h2', h3⟩ := htr (i + 1) (Nat.succ_lt_succ hi)
          refine ⟨l', ?_, h2', h3⟩
          show fetch (s.fetches + 1 + i) = Observation.found l'
          have : s.fetches + 1 + i = s.fetches + (i + 1) := by ring
          rw [this]; exact h1)
        (by
          show fetch (s.fetches + 1 + m) = Observation.found ps.target
          have : s.fetches + 1 + m = s.fetches + (m + 1) := by ring
          rw [this]; exact htg)
      refine ⟨hres.1, ?_, ?_⟩
      · rw [hres.2.1]
        show s.fetches + 1 + (m + 1) = s.fetches + (m + 1 + 1)
        ring
      · rw [hres.2.2]
        show s.ticks + 1 + (m + 1) = s.ticks + (m + 1 + 1)
        ring

/-- A run in which every fetch reports "not found" decrements the budget
each tick and fails with budget exhaustion after `budget + 1` fetches. -/
lemma awaitAux_notFound_run (ps : PollSpec) (fetch : Nat → Observation)
    (hall : ∀ i, fetch i = Observation.notFound) :
    ∀ (b fuel : Nat) (s : LoopState),
      s.budget = b →
      b + 1 ≤ fuel →
      s.backoff ≤ ps.maxInterval →
      s.elapsed + b * ps.maxInterval ≤ ps.timeout →
      (awaitAux ps none fetch fuel s).outcome = Outcome.notFoundExhausted ∧
      (awaitAux ps none fetch fuel s).st.fetches = s.fetches + (b + 1) ∧
      (awaitAux ps none fetch fuel s).st.budget = 0 := by
  intro b
  induction b with
  | zero =>
      intro fuel s hb hfuel hbk htime
      obtain ⟨f, rfl⟩ : ∃ f, fuel = f + 1 :=
        ⟨fuel - 1, (Nat.succ_pred_eq_of_pos hfuel).symm⟩
      have h2 : ¬ ps.timeout < s.elapsed := by
        simp only [Nat.zero_mul, Nat.add_zero] at htime
        exact Nat.not_lt.mpr htime
      rw [awaitAux_done f (pollStep_notFound_zero (cancelSignaled_none _) h2 (hall _) hb)]
      simp [afterFetch, hb]
  | succ m ih =>
      intro fuel s hb hfuel hbk htime
      obtain ⟨f, rfl⟩ : ∃ f, fuel = f + 1 :=
        ⟨fuel - 1, (Nat.succ_pred_eq_of_pos (Nat.lt_of_lt_of_le (Nat.succ_pos _) hfuel)).symm⟩
      have htime' : s.elapsed + (m * ps.maxInterval + ps.maxInterval) ≤ ps.timeout := by
        rw [Nat.succ_mul] at htime; exact htime
      have h2 : ¬ ps.timeout < s.elapsed :=
        Nat.not_lt.mpr (le_trans (Nat.le_add_right _ _) htime')
      rw [awaitAux_again f (pollStep_notFound_retry (cancelSignaled_none _) h2 (hall _)
        (hb ▸ Nat.succ_ne_zero m))]
      have hres := ih f (stepSleep ps { afterFetch s with budget := s.budget - 1 })
        (by simp [stepSleep, afterFetch, hb])
        (Nat.lt_succ_iff.mp (Nat.lt_of_succ_le hfuel))
        (min_le_right _ _)
        (by
          show s.elapsed + s.backoff + m * ps.maxInterval ≤ ps.timeout
          calc s.elapsed + s.backoff + m * ps.maxInterval
              ≤ s.elapsed + ps.maxInterval + m * ps.maxInterval := by
                exact Nat.add_le_add_right (Nat.add_le_add_left hbk _) _
            _ = s.elapsed + (m * ps.maxInterval + ps.maxInterval) := by ring
            _ ≤ ps.timeout := htime')
      refine ⟨hres.1, ?_, hres.2.2⟩
      rw [hres.2.1]
      show s.fetches + 1 + (m + 1) = s.fetches + (m + 1 + 1)
      ring

/-- With no cancellation, a finished run either timed out, ran out of
fuel, or ended with its elapsed clock within the deadline. -/
lemma awaitAux_elapsed_classified (ps : PollSpec) (fetch : Nat → Observation) :
    ∀ fuel s, (awaitAux ps none fetch fuel s).outcome = Outcome.timedOut ∨
      (awaitAux ps none fetch fuel s).outcome = Outcome.outOfFuel ∨
      (awaitAux ps none fetch fuel s).st.elapsed ≤ ps.timeout := by
  intro fuel
  induction fuel with
  | zero => intro s; right; left; rfl
  | succ f ih =>
    intro s
    by_cases htm : ps.timeout < s.elapsed
    · left; rw [awaitAux_done f (pollStep_timedOut (cancelSignaled_none _) htm)]
    · have hel : s.elapsed ≤ ps.timeout := Nat.not_lt.mp htm
      cases hobs : fetch s.fetches with
      | transportError =>
          right; right
          rw [awaitAux_done f (pollStep_transport (cancelSignaled_none _) htm hobs)]
          simpa [afterFetch] using hel
      | notFound =>
          by_cases hb : s.budget = 0
          · right; right
            rw [awaitAux_done f
              (pollStep_notFound_zero (cancelSignaled_none _) htm hobs hb)]
            simpa [afterFetch] using hel
          · rw [awaitAux_again f
              (pollStep_notFound_retry (cancelSignaled_none _) htm hobs hb)]
            exact ih _
      | found lbl =>
          by_cases htg : lbl = ps.target
          · subst htg
            right; right
            rw [awaitAux_done f (pollStep_target (cancelSignaled_none _) htm hobs)]
            simpa [afterFetch] using hel
          · by_cases hmem : ps.transientStates.contains lbl
            · rw [awaitAux_again f
                (pollStep_transient (cancelSignaled_none _) htm hobs htg hmem)]
              exact ih _
            · right; right
              rw [awaitAux_done f (pollStep_unexpected (cancelSignaled_none _) htm hobs htg
                (by simpa using hmem))]
              simpa [afterFetch] using hel

/-- With positive backoff and fuel past the deadline, the bounded
recursion never runs out of fuel. -/
lemma awaitAux_no_fuel_exhaustion (ps : PollSpec) (fetch : Nat → Observation)
    (hmx : 1 ≤ ps.maxInterval) :
    ∀ fuel s, 1 ≤ fuel → 1 ≤ s.backoff → ps.timeout + 2 ≤ s.elapsed + fuel →
      (awaitAux ps none fetch fuel s).outcome ≠ Outcome.outOfFuel := by
  intro fuel
  induction fuel with
  | zero => intro s h1 _ _; exact absurd h1 (by omega)
  | succ f ih =>
    intro s _ hbk hfl
    by_cases htm : ps.timeout < s.elapsed
    · rw [awaitAux_done f (pollStep_timedOut (cancelSignaled_none _) htm)]
      simp
    · have hel : s.elapsed ≤ ps.timeout := Nat.not_lt.mp htm
      have hf1 : 1 ≤ f := by omega
      cases hobs : fetch s.fetches with
      | transportError =>
          rw [awaitAux_done f (pollStep_transport (cancelSignaled_none _) htm hobs)]
          simp
      | notFound =>
          by_cases hb : s.budget = 0
          · rw [awaitAux_done f
              (pollStep_notFound_zero (cancelSignaled_none _) htm hobs hb)]
            simp
          · rw [awaitAux_again f
              (pollStep_notFound_retry (cancelSignaled_none _) htm hobs hb)]
            refine ih _ hf1 (le_min (by show (1:Nat) ≤ 2 * s.backoff; omega) hmx) ?_
            show ps.timeout + 2 ≤ s.elapsed + s.backoff + f
            omega
      | found lbl =>
          by_cases htg : lbl = ps.target
          · subst htg
            rw [awaitAux_done f (pollStep_target (cancelSignaled_none _) htm hobs)]
            simp
          · by_cases hmem : ps.transientStates.contains lbl
            · rw [awaitAux_again f
                (pollStep_transient (cancelSignaled_none _) htm hobs htg hmem)]
              refine ih _ hf1 (le_min (by show (1:Nat) ≤ 2 * s.backoff; omega) hmx) ?_
              show ps.timeout + 2 ≤ s.elapsed + s.backoff + f
              omega
            · rw [awaitAux_done f (pollStep_unexpected (cancelSignaled_none _) htm hobs htg
                (by simpa using hmem))]
              simp

/-- With an always-transient fetch, no cancellation, positive backoff and
enough fuel, the run ends with a timeout classification. -/
lemma awaitAux_transient_timeout (ps : PollSpec) (fetch : Nat → Observation)
    (hmx : 1 ≤ ps.maxInterval)
    (htr : ∀ i, ∃ l, fetch i = Observation.found l ∧ l ≠ ps.target ∧
      ps.transientStates.contains l = true) :
    ∀ fuel s, 1 ≤ fuel → 1 ≤ s.backoff → ps.timeout + 2 ≤ s.elapsed + fuel →
      (awaitAux ps none fetch fuel s).outcome = Outcome.timedOut := by
  intro fuel
  induction fuel with
  | zero => intro s h1 _ _; exact absurd h1 (by omega)
  | succ f ih =>
    intro s _ hbk hfl
    by_cases htm : ps.timeout < s.elapsed
    · rw [awaitAux_done f (pollStep_timedOut (cancelSignaled_none _) htm)]
    · have hel : s.elapsed ≤ ps.timeout := Nat.not_lt.mp htm
      have hf1 : 1 ≤ f := by omega
      obtain ⟨l, hf, hnt, hmem⟩ := htr s.fetches
      rw [awaitAux_again f
        (pollStep_transient (cancelSignaled_none _) htm hf hnt hmem)]
      refine ih _ hf1 (le_min (by show (1:Nat) ≤ 2 * s.backoff; omega) hmx) ?_
      show ps.timeout + 2 ≤ s.elapsed + s.backoff + f
      omega

/-- With an always-transient fetch and a cancellation signal arriving
before the deadline, the run ends cancelled, within one (maximal) backoff
interval of the signal. -/
lemma awaitAux_cancelled_run (ps : PollSpec) (fetch : Nat → Observation) (c : Nat)
    (htr : ∀ i, ∃ l, fetch i = Observation.found l ∧ l ≠ ps.target ∧
      ps.transientStates.contains l = true)
    (hct : c ≤ ps.timeout) (hmx : 1 ≤ ps.maxInterval) :
    ∀ fuel s, 1 ≤ fuel → 1 ≤ s.backoff → s.backoff ≤ ps.maxInterval →
      s.elapsed < c + ps.maxInterval → c + 1 ≤ s.elapsed + fuel →
      (awaitAux ps (some c) fetch fuel s).outcome = Outcome.cancelled ∧
      (awaitAux ps (some c) fetch fuel s).st.elapsed < c + ps.maxInterval := by
  intro fuel
  induction fuel with
  | zero => intro s h1 _ _ _ _; exact absurd h1 (by omega)
  | succ f ih =>
    intro s _ hbk1 hbk2 hlt hfl
    cases hc : cancelSignaled (some c) s.elapsed with
    | true =>
        rw [awaitAux_done f (pollStep_cancel hc)]
        exact ⟨rfl, hlt⟩
    | false =>
        have hec : s.elapsed < c := cancelSignaled_some_false hc
        have htm : ¬ ps.timeout < s.elapsed := by omega
        have hf1 : 1 ≤ f := by omega
        obtain ⟨l, hf, hnt, hmem⟩ := htr s.fetches
        rw [awaitAux_again f (pollStep_transient hc htm hf hnt hmem)]
        refine ih _ hf1 (le_min (by show (1:Nat) ≤ 2 * s.backoff; omega) hmx) (min_le_right _ _) ?_ ?_
        · show s.elapsed + s.backoff < c + ps.maxInterval
          omega
        · show c + 1 ≤ s.elapsed + s.backoff + f
          omega

/-! ## Claim theorems about the poller -/

/-- C1: for every finite sequence of `n` transient-state observations
followed by a target observation, `await` succeeds carrying the final
observation, the number of fetch invocations equals the length `n + 1` of
the sequence, and each tick performs exactly one fetch (tick count equals
fetch count). -/
theorem await_transient_then_target (ps : PollSpec) (fetch : Nat → Observation)
    (n fuel : Nat) (hfuel : n < fuel) (hmm : ps.minInterval ≤ ps.maxInterval)
    (htime : n * ps.maxInterval ≤ ps.timeout)
    (htr : ∀ i, i < n → ∃ l, fetch i = Observation.found l ∧ l ≠ ps.target ∧
      ps.transientStates.contains l = true)
    (htg : fetch n = Observation.found ps.target) :
    (await ps none fetch fuel).outcome = Outcome.success (Observation.found ps.target) ∧
    (await ps none fetch fuel).st.fetches = n + 1 ∧
    (await ps none fetch fuel).st.ticks = (await ps none fetch fuel).st.fetches := by
  have h := awaitAux_transient_run ps fetch n fuel (initState ps) hfuel
    (by simpa [initState] using hmm)
    (by simpa [initState] using htime)
    (by intro i hi; simpa [initState] using htr i hi)
    (by simpa [initState] using htg)
  exact ⟨h.1, by simpa [initState] using h.2.1,
    await_ticks_eq_fetches ps none fetch fuel⟩

/-- C1 witness: the sequence `["pending", "pending", "active"]` gives
success with the "active" observation after exactly 3 fetches. -/
theorem await_transient_then_target_spot :
    (await psA none fetchPendActive 10).outcome =
      Outcome.success (Observation.found psA.target) ∧
    (await psA none fetchPendActive 10).st.fetches = 2 + 1 ∧
    (await psA none fetchPendActive 10).st.ticks =
      (await psA none fetchPendActive 10).st.fetches :=
  await_transient_then_target psA fetchPendActive 2 10 (by decide) (by decide) (by decide)
    (fun i hi => ⟨"pending", by simp [fetchPendActive, hi], by decide, by decide⟩)
    (by decide)

/-- C2: when every fetch fails "not found", the budget is consumed one
unit per tick and the run fails with budget exhaustion after exactly
`notFoundRetryBudget + 1` fetches, the final budget being zero. -/
theorem await_notFound_exhausts_budget (ps : PollSpec) (fetch : Nat → Observation)
    (fuel : Nat) (hfuel : ps.notFoundRetryBudget + 1 ≤ fuel)
    (hmm : ps.minInterval ≤ ps.maxInterval)
    (htime : ps.notFoundRetryBudget * ps.maxInterval ≤ ps.timeout)
    (hall : ∀ i, fetch i = Observation.notFound) :
    (await ps none fetch fuel).outcome = Outcome.notFoundExhausted ∧
    (await ps none fetch fuel).st.fetches = ps.notFoundRetryBudget + 1 ∧
    (await ps none fetch fuel).st.budget = 0 := by
  have h := awaitAux_notFound_run ps fetch hall ps.notFoundRetryBudget fuel (initState ps)
    rfl hfuel (by simpa [initState] using hmm) (by simpa [initState] using htime)
  exact ⟨h.1, by simpa [initState] using h.2.1, h.2.2⟩

/-- C2 witness: with `notFoundRetryBudget = 2`, three consecutive
"not found" observations make the run fail with budget exhaustion after
exactly 3 fetches. -/
theorem await_notFound_exhausts_budget_spot :
    (await psB none fetchNF 20).outcome = Outcome.notFoundExhausted ∧
    (await psB none fetchNF 20).st.fetches = psB.notFoundRetryBudget + 1 ∧
    (await psB none fetchNF 20).st.budget = 0 :=
  await_notFound_exhausts_budget psB fetchNF 20 (by decide) (by decide) (by decide)
    (fun _ => rfl)

/-- C3: when every fetch returns a label that is neither the target nor a
transient state, `await` fails with an unexpected-state classification
carrying the offending label, after exactly one fetch (and one tick). -/
theorem await_unexpected_after_one_fetch (ps : PollSpec) (fetch : Nat → Observation)
    (fuel : Nat) (hfuel : 1 ≤ fuel)
    (hall : ∀ i, ∃ l, fetch i = Observation.found l ∧ l ≠ ps.target ∧
      ps.transientStates.contains l = false) :
    ∃ l, fetch 0 = Observation.found l ∧
      (await ps none fetch fuel).outcome = Outcome.unexpectedState l ∧
      (await ps none fetch fuel).st.fetches = 1 ∧
      (await ps none fetch fuel).st.ticks = 1 := by
  obtain ⟨l, hf, hnt, hnm⟩ := hall 0
  obtain ⟨f, rfl⟩ : ∃ f, fuel = f + 1 :=
    ⟨fuel - 1, (Nat.succ_pred_eq_of_pos hfuel).symm⟩
  refine ⟨l, hf, ?_⟩
  have h2 : ¬ ps.timeout < (initState ps).elapsed := by simp [initState]
  have hstep : pollStep ps none fetch (initState ps) =
      StepRes.done (Outcome.unexpectedState l) (afterFetch (initState ps)) :=
    pollStep_unexpected (cancelSignaled_none _) h2 (by simpa [initState] using hf) hnt hnm
  rw [await, awaitAux_done f hstep]
  simp [afterFetch, initState]

/-- C3 witness: a fetch that always reports the label "weird". -/
theorem await_unexpected_after_one_fetch_spot :
    ∃ l, fetchOdd 0 = Observation.found l ∧
      (await psA none fetchOdd 1).outcome = Outcome.unexpectedState l ∧
      (await psA none fetchOdd 1).st.fetches = 1 ∧
      (await psA none fetchOdd 1).st.ticks = 1 :=
  await_unexpected_after_one_fetch psA fetchOdd 1 (by decide)
    (fun _ => ⟨"weird", rfl, by decide, by decide⟩)

/-- C4: in every run, successive sleep intervals are non-decreasing and
each equals the capped doubling of its predecessor; the first interval is
`minInterval`; and no interval exceeds `maxInterval`. -/
theorem await_backoff_discipline (ps : PollSpec) (cancelAt : Option Nat)
    (fetch : Nat → Observation) (fuel : Nat) (hmm : ps.minInterval ≤ ps.maxInterval) :
    List.Chain' (fun a b => a ≤ b ∧ b = min (2 * a) ps.maxInterval)
      (await ps cancelAt fetch fuel).st.sleeps ∧
    ((await ps cancelAt fetch fuel).st.sleeps = [] ∨
      (await ps cancelAt fetch fuel).st.sleeps.head? = some ps.minInterval) ∧
    (∀ x ∈ (await ps cancelAt fetch fuel).st.sleeps, x ≤ ps.maxInterval) := by
  obtain ⟨n, hsn⟩ : ∃ n, (await ps cancelAt fetch fuel).st.sleeps =
      (List.range n).map (backoffSeq ps.minInterval ps.maxInterval) :=
    ⟨_, (await_sleeps_eq_backoffSeq ps cancelAt fetch fuel).1⟩
  rw [hsn]
  refine ⟨?_, ?_, ?_⟩
  · rw [List.chain'_map]
    cases n with
    | zero => simp
    | succ m =>
        rw [List.chain'_range_succ]
        intro i _
        exact ⟨backoffSeq_le_succ hmm i, rfl⟩
  · cases n with
    | zero => left; simp
    | succ m => right; simp [List.range_succ_eq_map, backoffSeq]
  · intro x hx
    simp only [List.mem_map, List.mem_range] at hx
    obtain ⟨i, _, rfl⟩ := hx
    exact backoffSeq_le hmm i

/-- C4 witness: the concrete configuration with `minInterval = 5` and
`maxInterval = 10`. -/
theorem await_backoff_discipline_spot :
    List.Chain' (fun a b => a ≤ b ∧ b = min (2 * a) psA.maxInterval)
      (await psA none fetchPendActive 10).st.sleeps ∧
    ((await psA none fetchPendActive 10).st.sleeps = [] ∨
      (await psA none fetchPendActive 10).st.sleeps.head? = some psA.minInterval) ∧
    (∀ x ∈ (await psA none fetchPendActive 10).st.sleeps, x ≤ psA.maxInterval) :=
  await_backoff_discipline psA none fetchPendActive 10 (by decide)

/-- C5: with positive intervals and enough fuel, a run without
cancellation never exhausts its fuel; if its elapsed clock passed the
deadline it is classified as a timeout; no fetch is ever issued after the
deadline; and an always-transient fetch makes the run end as a
timeout. -/
theorem await_timeout_discipline (ps : PollSpec) (fetch : Nat → Observation)
    (fuel : Nat) (hmin : 1 ≤ ps.minInterval) (hmm : ps.minInterval ≤ ps.maxInterval)
    (hfuel : ps.timeout + 2 ≤ fuel) :
    (await ps none fetch fuel).outcome ≠ Outcome.outOfFuel ∧
    (ps.timeout < (await ps none fetch fuel).st.elapsed →
      (await ps none fetch fuel).outcome = Outcome.timedOut) ∧
    (∀ t ∈ (await ps none fetch fuel).st.fetchTimes, t ≤ ps.timeout) ∧
    ((∀ i, ∃ l, fetch i = Observation.found l ∧ l ≠ ps.target ∧
        ps.transientStates.contains l = true) →
      (await ps none fetch fuel).outcome = Outcome.timedOut) := by
  have hmx : 1 ≤ ps.maxInterval := le_trans hmin hmm
  have h1 : (await ps none fetch fuel).outcome ≠ Outcome.outOfFuel :=
    awaitAux_no_fuel_exhaustion ps fetch hmx fuel (initState ps) (by omega)
      (by simpa [initState] using hmin) (by simpa [initState] using hfuel)
  refine ⟨h1, ?_, await_fetchTimes_le_timeout ps none fetch fuel, ?_⟩
  · intro hel
    rcases awaitAux_elapsed_classified ps fetch fuel (initState ps) with h | h | h
    · exact h
    · exact absurd h h1
    · exact absurd hel (Nat.not_lt.mpr h)
  · intro htr
    exact awaitAux_transient_timeout ps fetch hmx htr fuel (initState ps) (by omega)
      (by simpa [initState] using hmin) (by simpa [initState] using hfuel)

/-- C5 witness: the concrete configuration with fuel past the
deadline. -/
theorem await_timeout_discipline_spot :
    (await psA none fetchPendingOnly 3602).outcome ≠ Outcome.outOfFuel ∧
    (psA.timeout < (await psA none fetchPendingOnly 3602).st.elapsed →
      (await psA none fetchPendingOnly 3602).outcome = Outcome.timedOut) ∧
    (∀ t ∈ (await psA none fetchPendingOnly 3602).st.fetchTimes, t ≤ psA.timeout) ∧
    ((∀ i, ∃ l, fetchPendingOnly i = Observation.found l ∧ l ≠ psA.target ∧
        psA.transientStates.contains l = true) →
      (await psA none fetchPendingOnly 3602).outcome = Outcome.timedOut) :=
  await_timeout_discipline psA fetchPendingOnly 3602 (by decide) (by decide) (by decide)

/-- C6: when the execution context is cancelled at time `c` before the
deadline and the target is never observed (always-transient fetch), the
run returns a cancelled classification — never a success — its final
clock lies within one (maximal) backoff interval of the signal, and no
fetch is issued at or after the signal. -/
theorem await_cancellation_prompt (ps : PollSpec) (fetch : Nat → Observation)
    (fuel c : Nat) (hmin : 1 ≤ ps.minInterval) (hmm : ps.minInterval ≤ ps.maxInterval)
    (hct : c ≤ ps.timeout) (hfuel : c + 1 ≤ fuel)
    (htr : ∀ i, ∃ l, fetch i = Observation.found l ∧ l ≠ ps.target ∧
      ps.transientStates.contains l = true) :
    (await ps (some c) fetch fuel).outcome = Outcome.cancelled ∧
    (await ps (some c) fetch fuel).st.elapsed < c + ps.maxInterval ∧
    (∀ t ∈ (await ps (some c) fetch fuel).st.fetchTimes, t < c) := by
  have hmx : 1 ≤ ps.maxInterval := le_trans hmin hmm
  have h := awaitAux_cancelled_run ps fetch c htr hct hmx fuel (initState ps)
    (by omega) (by simpa [initState] using hmin) (by simpa [initState] using hmm)
    (by simp only [initState]; omega) (by simpa [initState] using hfuel)
  exact ⟨h.1, h.2, await_fetchTimes_lt_cancel ps c fetch fuel⟩

/-- C6 witness: cancellation at time 7 against an always-pending
fetch. -/
theorem await_cancellation_prompt_spot :
    (await psA (some 7) fetchPendingOnly 8).outcome = Outcome.cancelled ∧
    (await psA (some 7) fetchPendingOnly 8).st.elapsed < 7 + psA.maxInterval ∧
    (∀ t ∈ (await psA (some 7) fetchPendingOnly 8).st.fetchTimes, t < 7) :=
  await_cancellation_prompt psA fetchPendingOnly 8 7 (by decide) (by decide) (by decide)
    (by decide) (fun _ => ⟨"pending", rfl, by decide, by decide⟩)

/-! ## Theorems about the source-embedded definitions -/

/-- C7: for every error returned by `GetCluster` inside the read
operation, classification is by substring match on the message:
"Unauthorized" yields an API-authorization error; otherwise
"Invalid resource ID" clears the stored ID and returns nil diagnostics;
otherwise a generic error is returned and the ID is untouched. -/
theorem read_error_classification (id msg : String) :
    (strContainsSub msg "Unauthorized" = true →
      readOnGetClusterError id msg =
        { newId := none, diagError := some ("API authorization error: " ++ msg) }) ∧
    (strContainsSub msg "Unauthorized" = false →
      strContainsSub msg "Invalid resource ID" = true →
      readOnGetClusterError id msg = { newId := some "", diagError := none }) ∧
    (strContainsSub msg "Unauthorized" = false →
      strContainsSub msg "Invalid resource ID" = false →
      readOnGetClusterError id msg =
        { newId := none,
          diagError := some ("error getting cluster (" ++ id ++ "): " ++ msg) }) := by
  refine ⟨fun h1 => ?_, fun h1 h2 => ?_, fun h1 h2 => ?_⟩ <;>
    simp [readOnGetClusterError, h1]
  · simp [h2]
  · simp [h2]

/-- C7 witness: the three branches evaluated at concrete messages. -/
theorem read_error_classification_spot :
    (strContainsSub "oops Unauthorized token" "Unauthorized" = true →
      readOnGetClusterError "abc" "oops Unauthorized token" =
        { newId := none,
          diagError := some ("API authorization error: " ++ "oops Unauthorized token") }) ∧
    (strContainsSub "oops Unauthorized token" "Unauthorized" = false →
      strContainsSub "oops Unauthorized token" "Invalid resource ID" = true →
      readOnGetClusterError "abc" "oops Unauthorized token" =
        { newId := some "", diagError := none }) ∧
    (strContainsSub "oops Unauthorized token" "Unauthorized" = false →
      strContainsSub "oops Unauthorized token" "Invalid resource ID" = false →
      readOnGetClusterError "abc" "oops Unauthorized token" =
        { newId := none,
          diagError := some ("error getting cluster (" ++ "abc" ++ "): "
            ++ "oops Unauthorized token") }) :=
  read_error_classification "abc" "oops Unauthorized token"

/-- C8: when the remote create succeeds, the stored resource ID is the
created cluster's ID whatever the subsequent wait returns; if the wait
fails (timeout, unexpected state, or transport error), create reports an
error but the stored ID stays set.  When the remote create fails, the ID
is never set. -/
theorem create_keeps_id_on_wait_failure (c : K8Cluster) (w : RunResult) (e : String) :
    (resourceVultrKubernetesCreate (Except.ok c) w).storedId = some c.id ∧
    (w.outcome = Outcome.timedOut ∨ (∃ l, w.outcome = Outcome.unexpectedState l) ∨
        w.outcome = Outcome.transportFailed →
      (resourceVultrKubernetesCreate (Except.ok c) w).hasError = true) ∧
    (resourceVultrKubernetesCreate (Except.error e) w).storedId = none := by
  refine ⟨rfl, fun h => ?_, rfl⟩
  rcases h with h | ⟨l, h⟩ | h <;>
    simp [resourceVultrKubernetesCreate, waitFailed, h]

/-- C8 witness: a concrete successful create followed by a timed-out
wait keeps the stored ID and reports an error. -/
theorem create_keeps_id_on_wait_failure_spot :
    (resourceVultrKubernetesCreate
        (Except.ok { id := "k8s-1", status := "pending", nodePools := [] })
        { outcome := Outcome.timedOut, st := initState ⟨"active", ["pending"], 5, 10, 3600, 60⟩ }).storedId
      = some ({ id := "k8s-1", status := "pending", nodePools := [] } : K8Cluster).id ∧
    (({ outcome := Outcome.timedOut, st := initState ⟨"active", ["pending"], 5, 10, 3600, 60⟩ } : RunResult).outcome = Outcome.timedOut ∨
      (∃ l, ({ outcome := Outcome.timedOut, st := initState ⟨"active", ["pending"], 5, 10, 3600, 60⟩ } : RunResult).outcome = Outcome.unexpectedState l) ∨
      ({ outcome := Outcome.timedOut, st := initState ⟨"active", ["pending"], 5, 10, 3600, 60⟩ } : RunResult).outcome = Outcome.transportFailed →
      (resourceVultrKubernetesCreate
        (Except.ok { id := "k8s-1", status := "pending", nodePools := [] })
        { outcome := Outcome.timedOut, st := initState ⟨"active", ["pending"], 5, 10, 3600, 60⟩ }).hasError = true) ∧
    (resourceVultrKubernetesCreate (Except.error "boom")
        { outcome := Outcome.timedOut, st := initState ⟨"active", ["pending"], 5, 10, 3600, 60⟩ }).storedId = none :=
  create_keeps_id_on_wait_failure
    { id := "k8s-1", status := "pending", nodePools := [] }
    { outcome := Outcome.timedOut, st := initState ⟨"active", ["pending"], 5, 10, 3600, 60⟩ }
    "boom"

/-- C9: every node-pool request built by `generateNodePool` and every
request built by the node-pool-creation branch of the update function
carries the tag `tfVKEDefault`; and the read operation's selection loop
returns exactly the first remote pool tagged `tfVKEDefault`, ignoring all
later pools. -/
theorem node_pool_default_tag (cfgs : List PoolCfg) (cfg : PoolCfg)
    (nps : List NodePool) :
    (∀ r ∈ generateNodePool cfgs, r.tag = tfVKEDefault) ∧
    (updateCreateNodePoolReq cfg).tag = tfVKEDefault ∧
    firstDefaultPool nps = nps.find? (fun v => tfVKEDefault == v.tag) ∧
    (∀ p, firstDefaultPool nps = some p → p.tag = tfVKEDefault) := by
  refine ⟨?_, rfl, ?_, ?_⟩
  · intro r hr
    simp only [generateNodePool, List.mem_map] at hr
    obtain ⟨a, _, rfl⟩ := hr
    rfl
  · induction nps with
    | nil => rfl
    | cons v rest ih =>
        by_cases h : tfVKEDefault == v.tag
        · simp [firstDefaultPool, List.find?, h]
        · simp only [firstDefaultPool, List.find?]
          rw [if_neg h, Bool.not_eq_true] at *
          simp [h, ih]
  · intro p hp
    induction nps with
    | nil => simp [firstDefaultPool] at hp
    | cons v rest ih =>
        by_cases h : tfVKEDefault == v.tag
        · simp only [firstDefaultPool, if_pos h, Option.some.injEq] at hp
          subst hp
          exact (eq_of_beq h).symm
        · simp only [firstDefaultPool, if_neg h] at hp
          exact ih hp

/-- C9 witness: concrete configuration and remote pools; the second pool
carries the default tag and is selected over the later third one. -/
theorem node_pool_default_tag_spot :
    (∀ r ∈ generateNodePool [⟨3, "lbl", "plan-a", true, 1, 5⟩], r.tag = tfVKEDefault) ∧
    (updateCreateNodePoolReq ⟨3, "lbl", "plan-a", true, 1, 5⟩).tag = tfVKEDefault ∧
    firstDefaultPool
        [⟨"p0", "a", "pl", "ok", 1, "other", "", "", [], false, 0, 0⟩,
         ⟨"p1", "b", "pl", "ok", 1, "tf-vke-default", "", "", [], false, 0, 0⟩,
         ⟨"p2", "c", "pl", "ok", 1, "tf-vke-default", "", "", [], false, 0, 0⟩] =
      List.find? (fun v => tfVKEDefault == v.tag)
        [⟨"p0", "a", "pl", "ok", 1, "other", "", "", [], false, 0, 0⟩,
         ⟨"p1", "b", "pl", "ok", 1, "tf-vke-default", "", "", [], false, 0, 0⟩,
         ⟨"p2", "c", "pl", "ok", 1, "tf-vke-default", "", "", [], false, 0, 0⟩] ∧
    (∀ p, firstDefaultPool
        [⟨"p0", "a", "pl", "ok", 1, "other", "", "", [], false, 0, 0⟩,
         ⟨"p1", "b", "pl", "ok", 1, "tf-vke-default", "", "", [], false, 0, 0⟩,
         ⟨"p2", "c", "pl", "ok", 1, "tf-vke-default", "", "", [], false, 0, 0⟩] = some p →
      p.tag = tfVKEDefault) :=
  node_pool_default_tag [⟨3, "lbl", "plan-a", true, 1, 5⟩] ⟨3, "lbl", "plan-a", true, 1, 5⟩
    [⟨"p0", "a", "pl", "ok", 1, "other", "", "", [], false, 0, 0⟩,
     ⟨"p1", "b", "pl", "ok", 1, "tf-vke-default", "", "", [], false, 0, 0⟩,
     ⟨"p2", "c", "pl", "ok", 1, "tf-vke-default", "", "", [], false, 0, 0⟩]

/-- C10: for any attribute other than "status", a successful remote read
makes the refresh function return `(nil, "", nil)` — a not-found
observation whose empty label can never equal a non-empty target — and on
a failed remote read the refresh function discards the underlying error,
returning the same fresh message (naming only the cluster ID) whatever
the error was. -/
theorem refresh_non_status_attribute (attr id : String) (hattr : attr ≠ "status")
    (vke : K8Cluster) (e e' : String) (target : String) (ht : target ≠ "") :
    newVKEStateRefresh attr id (Except.ok vke) = { payload := none, label := "", err := none } ∧
    (newVKEStateRefresh attr id (Except.ok vke)).label ≠ target ∧
    newVKEStateRefresh attr id (Except.error e) = newVKEStateRefresh attr id (Except.error e') ∧
    (newVKEStateRefresh attr id (Except.error e)).err =
      some ("error retrieving kubernetes cluster " ++ id ++ " ") := by
  refine ⟨?_, ?_, rfl, rfl⟩
  · simp [newVKEStateRefresh, hattr]
  · simp [newVKEStateRefresh, hattr]
    exact fun h => ht h.symm

/-- C10 witness: a concrete non-"status" attribute. -/
theorem refresh_non_status_attribute_spot :
    newVKEStateRefresh "ip" "cid" (Except.ok { id := "cid", status := "active", nodePools := [] })
        = { payload := none, label := "", err := none } ∧
    (newVKEStateRefresh "ip" "cid"
        (Except.ok { id := "cid", status := "active", nodePools := [] })).label ≠ "active" ∧
    newVKEStateRefresh "ip" "cid" (Except.error "err one")
        = newVKEStateRefresh "ip" "cid" (Except.error "err two") ∧
    (newVKEStateRefresh "ip" "cid" (Except.error "err one")).err =
      some ("error retrieving kubernetes cluster " ++ "cid" ++ " ") :=
  refresh_non_status_attribute "ip" "cid" (by decide)
    { id := "cid", status := "active", nodePools := [] } "err one" "err two" "active" (by decide)

end VKE
